import Mathlib

/-!
Shallow embedding of pkg/ghpr/ghpr.go (package ghpr).

External collaborators (the go-git library, the GitHub REST client, the
filesystem) are modelled as environments: each network or filesystem call a
function performs is represented by the result that call would return, and the
embedded function is a pure function of those results.  Go errors are modelled
as Option String (none = nil error, some msg = a non-nil error carrying msg);
fallible calls that also produce a value are modelled as Except String α.
Go time.Time is modelled as Nat, with 0 standing for the zero time value
(time.Time\x7b\x7d); commit hashes and SHAs are modelled as String.
-/

namespace Ghpr

/-- Decidable equality for Except, needed so that concrete runs of the
embedded operations can be settled with decide. -/
instance {ε α : Type _} [DecidableEq ε] [DecidableEq α] : DecidableEq (Except ε α) :=
  fun x y =>
  match x, y with
  | .error a, .error b =>
    if h : a = b then .isTrue (congrArg Except.error h)
    else .isFalse (fun hc => h (Except.error.inj hc))
  | .error _, .ok _ => .isFalse (fun hc => Except.noConfusion hc)
  | .ok _, .error _ => .isFalse (fun hc => Except.noConfusion hc)
  | .ok a, .ok b =>
    if h : a = b then .isTrue (congrArg Except.ok h)
    else .isFalse (fun hc => h (Except.ok.inj hc))

/-- One entry of a commit-status page as returned by
Repositories.ListStatuses: its Context (check name) and State
(ghpr.go lines 230-231). -/
structure Status where
  context : String
  state : String
deriving DecidableEq

/-- Outcome of one scan of a status page inside the polling goroutine of
waitForStatus (ghpr.go lines 229-243): the goroutine either resolves
positively (sends nil on the channel), resolves negatively (sends the
failed-state error), or falls through and keeps polling. -/
inductive ScanResult where
  | positive
  | negative
  | keepPolling
deriving DecidableEq

/-- The inner for-loop of waitForStatus (ghpr.go lines 229-243): walk the
page in order; at an entry whose Context equals statusContext, state
"success" resolves positively and state "failure" or "error" resolves
negatively; any other entry (non-matching, or matching with any other
state) is stepped over and the scan continues with the next entry.
A nil statuses slice in Go skips the scan entirely, which coincides with
scanning the empty list. -/
def scanPage (statuses : List Status) (statusContext : String) : ScanResult :=
  match statuses with
  | [] => .keepPolling
  | s :: rest =>
    if s.context = statusContext then
      if s.state = "success" then .positive
      else if s.state = "failure" ∨ s.state = "error" then .negative
      else scanPage rest statusContext
    else scanPage rest statusContext

/-- The same scan restricted to the entries that already match the requested
check name; scanPage is shown below to factor through it. -/
def scanMatches (statuses : List Status) : ScanResult :=
  match statuses with
  | [] => .keepPolling
  | s :: rest =>
    if s.state = "success" then .positive
    else if s.state = "failure" ∨ s.state = "error" then .negative
    else scanMatches rest

/-- A status entry is in a terminal state when its state is success, failure
or error; these are the states at which the scan of ghpr.go lines 229-243
stops. -/
def isTerminal (s : Status) : Bool :=
  decide (s.state = "success") || decide (s.state = "failure")
    || decide (s.state = "error")

/-- Error message built at ghpr.go line 239. -/
def statusFailedMsg : String := "target status check is in a failed state, aborting"

/-- Error message built at ghpr.go line 252. -/
def timeoutMsg : String := "timed out waiting for PR to become mergeable"

/-- waitForStatus (ghpr.go lines 214-254).  The polling goroutine sleeps 2
seconds and then calls ListStatuses once per iteration; `polls` is the
sequence of results those calls would return (Except.error e is a transport
error, Except.ok page is a status page).  The driving select races the
goroutine's one-slot channel against a 60-minute timer; `fuel` is the number
of poll iterations that can still complete before that timer fires.  When
fuel runs out, or the goroutine would poll beyond the supplied results, the
timer wins and the timeout error of line 252 is returned. -/
def waitForStatus (statusContext : String) :
    List (Except String (List Status)) → Nat → Option String
  | _, 0 => some timeoutMsg
  | [], _ + 1 => some timeoutMsg
  | poll :: rest, fuel + 1 =>
    match poll with
    | .error e => some e
    | .ok statuses =>
      match scanPage statuses statusContext with
      | .positive => none
      | .negative => some statusFailedMsg
      | .keepPolling => waitForStatus statusContext rest fuel

/-- The number of 2-second poll intervals in the 60-minute deadline of
ghpr.go line 251: the fuel with which a real run of waitForStatus starts. -/
def pollBudget : Nat := 1800

theorem scanPage_eq_scanMatches (statuses : List Status) (statusContext : String) :
    scanPage statuses statusContext
      = scanMatches (statuses.filter (fun s => s.context = statusContext)) := by
  induction statuses with
  | nil => rfl
  | cons s rest ih =>
    by_cases hc : s.context = statusContext
    · simp only [scanPage, List.filter_cons, hc]
      simp only [scanMatches, if_true, decide_True]
      split
      · rfl
      · split
        · rfl
        · exact ih
    · simp only [scanPage, List.filter_cons, hc]
      simp only [if_false, decide_False]
      exact ih

theorem scanMatches_eq_find (statuses : List Status) :
    scanMatches statuses
      = match statuses.find? isTerminal with
        | none => ScanResult.keepPolling
        | some s =>
          if s.state = "success" then ScanResult.positive else ScanResult.negative := by
  induction statuses with
  | nil => rfl
  | cons s rest ih =>
    by_cases hsucc : s.state = "success"
    · simp [scanMatches, hsucc, List.find?, isTerminal]
    · by_cases hfail : s.state = "failure"
      · simp [scanMatches, hsucc, hfail, List.find?, isTerminal]
      · by_cases herr : s.state = "error"
        · simp [scanMatches, hsucc, hfail, herr, List.find?, isTerminal]
        · simp only [scanMatches, hsucc, hfail, herr, if_neg, or_self, if_false]
          have ht : isTerminal s = false := by
            simp [isTerminal, hsucc, hfail, herr]
          simp only [List.find?, ht]
          exact ih

/-- object.Signature: the commit author information passed to w.Commit.
Go time.Time is modelled as a Nat, with 0 standing for the zero time value. -/
structure Author where
  name : String
  email : String
  when : Nat
deriving DecidableEq

/-- The results that the external calls made by PushCommit (ghpr.go lines
148-194) would return, in program order: gitRepo.Head(), the first
Storer.SetReference (branch ref), gitRepo.Worktree(), w.Checkout (whose
error the source discards at line 166), the UpdateFunc callback fn(w),
w.Commit, the second Storer.SetReference (remote-tracking ref), and
gitRepo.Push. -/
structure PushEnv where
  headRes : Except String String
  setBranchRefErr : Option String
  worktreeRes : Except String Unit
  checkoutErr : Option String
  mutateRes : Except String (String × Author)
  commitRes : Except String String
  setRemoteRefErr : Option String
  pushErr : Option String
deriving DecidableEq

/-- Observable outcome of one PushCommit call: whether w.Commit was invoked
and with which author, whether gitRepo.Push was invoked, and the returned
error. -/
structure PushTrace where
  commitCalled : Bool
  committedAuthor : Option Author
  pushCalled : Bool
  result : Option String
deriving DecidableEq

/-- PushCommit (ghpr.go lines 148-194).  `now` is the value time.Now() would
return.  Every step's error is returned immediately, with one exception
faithful to the source: the error returned by w.Checkout at line 166 is
discarded (the call's results are not assigned), so env.checkoutErr does not
influence the outcome.  When the author's When field equals the zero time it
is replaced by `now` before committing (lines 174-176). -/
def PushCommit (env : PushEnv) (now : Nat) : PushTrace :=
  match env.headRes with
  | .error e => ⟨false, none, false, some e⟩
  | .ok _head =>
    match env.setBranchRefErr with
    | some e => ⟨false, none, false, some e⟩
    | none =>
      match env.worktreeRes with
      | .error e => ⟨false, none, false, some e⟩
      | .ok _ =>
        match env.mutateRes with
        | .error e => ⟨false, none, false, some e⟩
        | .ok (_msg, author) =>
          let author := if author.when = 0 then { author with when := now } else author
          match env.commitRes with
          | .error e => ⟨true, some author, false, some e⟩
          | .ok _ =>
            match env.setRemoteRefErr with
            | some e => ⟨true, some author, false, some e⟩
            | none => ⟨true, some author, true, env.pushErr⟩

/-- The view of a pull request that PullRequests.Get returns to MergePR:
its Number and its Mergeable flag, a *bool that may be absent (nil). -/
structure PRView where
  number : Nat
  mergeable : Option Bool
deriving DecidableEq

/-- The results of the external calls made by MergePR: PullRequests.Get and
PullRequests.Merge (the latter producing the merge commit SHA). -/
structure MergeEnv where
  getRes : Except String PRView
  mergeRes : Except String String
deriving DecidableEq

/-- Error message built at ghpr.go line 284. -/
def notMergeableMsg : String := "PR is not mergeable"

/-- Observable outcome of one MergePR call: whether the merge API call
(PullRequests.Merge) was invoked, the returned error, and the value of the
mergeSHA field after the call. -/
structure MergeTrace where
  mergeAPICalled : Bool
  result : Option String
  mergeSHA : String
deriving DecidableEq

/-- MergePR (ghpr.go lines 271-287).  `mergeSHA0` is the value of
ghpr.mergeSHA before the call.  The merge API is invoked only when the
fetched Mergeable flag is present and true; otherwise the call fails with
the not-mergeable error and ghpr.mergeSHA is left unchanged. -/
def MergePR (mergeSHA0 : String) (env : MergeEnv) : MergeTrace :=
  match env.getRes with
  | .error e => ⟨false, some e, mergeSHA0⟩
  | .ok pr =>
    match pr.mergeable with
    | some true =>
      match env.mergeRes with
      | .error e => ⟨true, some e, mergeSHA0⟩
      | .ok sha => ⟨true, none, sha⟩
    | some false => ⟨false, some notMergeableMsg, mergeSHA0⟩
    | none => ⟨false, some notMergeableMsg, mergeSHA0⟩

/-- The results of the external calls made by Clone (ghpr.go lines 122-144):
filesystem.Chroot(".git") and git.Clone. -/
structure CloneEnv where
  chrootRes : Except String Unit
  cloneRes : Except String Unit
deriving DecidableEq

/-- The error Clone (ghpr.go lines 122-144) returns: the Chroot error, else
the git.Clone error, else nil (and the repository handle is populated). -/
def cloneResult (env : CloneEnv) : Option String :=
  match env.chrootRes with
  | .error e => some e
  | .ok _ =>
    match env.cloneRes with
    | .error e => some e
    | .ok _ => none

/-- The results of the external calls made by WaitForPR (ghpr.go lines
258-267): PullRequests.Get (returning the head SHA) followed by the
waitForStatus poll results and the fuel of its 60-minute race. -/
structure WaitPREnv where
  prGetRes : Except String String
  polls : List (Except String (List Status))
  fuel : Nat
deriving DecidableEq

/-- WaitForPR (ghpr.go lines 258-267): a Get failure is returned at once,
otherwise the call delegates to waitForStatus on the head SHA. -/
def waitForPRResult (statusContext : String) (env : WaitPREnv) : Option String :=
  match env.prGetRes with
  | .error e => some e
  | .ok _sha => waitForStatus statusContext env.polls env.fuel

/-- The results of all external calls one Create run (ghpr.go lines 301-330)
can make, in program order: the Clone calls, the PushCommit calls (with the
time.Now() value), the PullRequests.Create result (the new PR number), the
WaitForPR calls, the MergePR calls, and the poll results and fuel of the
final WaitForMergeCommit. -/
structure CreateEnv where
  cloneEnv : CloneEnv
  pushEnv : PushEnv
  now : Nat
  raiseRes : Except String Nat
  waitPREnv : WaitPREnv
  mergeEnv : MergeEnv
  waitMergePolls : List (Except String (List Status))
  waitMergeFuel : Nat
deriving DecidableEq

/-- Observable outcome of one Create run: which of the steps after Clone
were invoked, the exact arguments RaisePR was invoked with (head branch,
base branch, title, body), whether the deferred Close ran before the run
returned, and the returned error. -/
structure CreateTrace where
  pushCalled : Bool
  raiseArgs : Option (String × String × String × String)
  waitPRCalled : Bool
  mergeCalled : Bool
  waitMergeCalled : Bool
  closeCalled : Bool
  result : Option String
deriving DecidableEq

/-- Create (ghpr.go lines 301-330).  Clone runs first and its Close is
deferred immediately after the Clone call returns, so Close runs on every
exit path, the Clone-failure path included; each subsequent step runs only
if every earlier step returned nil, and the first error is returned.
RaisePR is invoked with title the literal "test" (the local variable
stuff, line 313) and body the literal empty string (line 314).  MergePR is
invoked on a fresh instance, whose mergeSHA field still holds the zero
value. -/
def Create (branchName targetBranch prStatusContext masterStatusContext : String)
    (env : CreateEnv) : CreateTrace :=
  match cloneResult env.cloneEnv with
  | some e => ⟨false, none, false, false, false, true, some e⟩
  | none =>
    match (PushCommit env.pushEnv env.now).result with
    | some e => ⟨true, none, false, false, false, true, some e⟩
    | none =>
      let args := (branchName, targetBranch, "test", "")
      match env.raiseRes with
      | .error e => ⟨true, some args, false, false, false, true, some e⟩
      | .ok _number =>
        match waitForPRResult prStatusContext env.waitPREnv with
        | some e => ⟨true, some args, true, false, false, true, some e⟩
        | none =>
          match (MergePR "" env.mergeEnv).result with
          | some e => ⟨true, some args, true, true, false, true, some e⟩
          | none =>
            ⟨true, some args, true, true, true, true,
              waitForStatus masterStatusContext env.waitMergePolls env.waitMergeFuel⟩

/-- The mutable fields of a GithubPR instance that the embedded operations
touch: the mergeSHA string (zero value "" at construction), the pr number
(zero value 0), and whether gitRepo has been populated by Clone. -/
structure GithubPRState where
  mergeSHA : String
  pr : Nat
  cloned : Bool
deriving DecidableEq

/-- The state of a GithubPR instance as makeGithubPR returns it: every
field at its zero value. -/
def initialState : GithubPRState := ⟨"", 0, false⟩

/-- One public operation on a GithubPR instance, packaged with the results
its external calls would return. -/
inductive Op where
  | clone (env : CloneEnv)
  | pushCommit (env : PushEnv) (now : Nat)
  | raisePR (res : Except String Nat)
  | waitForPR (statusContext : String) (env : WaitPREnv)
  | mergePR (env : MergeEnv)
  | waitForMergeCommit (statusContext : String)
      (polls : List (Except String (List Status))) (fuel : Nat)
  | close (removeErr : Option String)
deriving DecidableEq

/-- Whether an operation is a MergePR call. -/
def Op.isMergePR : Op → Bool
  | .mergePR _ => true
  | _ => false

/-- The effect of one operation on the instance state, paired with the
error the operation returns.  Clone populates the repository handle on
success (lines 131-137), RaisePR stores the new PR number on success (line
209), MergePR stores the merge SHA on success (line 282); Close
(os.RemoveAll, line 298) never touches the instance fields. -/
def step (s : GithubPRState) : Op → GithubPRState × Option String
  | .clone env =>
    match cloneResult env with
    | some e => (s, some e)
    | none => ({ s with cloned := true }, none)
  | .pushCommit env now => (s, (PushCommit env now).result)
  | .raisePR res =>
    match res with
    | .error e => (s, some e)
    | .ok n => ({ s with pr := n }, none)
  | .waitForPR statusContext env => (s, waitForPRResult statusContext env)
  | .mergePR env =>
    let t := MergePR s.mergeSHA env
    ({ s with mergeSHA := t.mergeSHA }, t.result)
  | .waitForMergeCommit statusContext polls fuel =>
    (s, waitForStatus statusContext polls fuel)
  | .close removeErr => (s, removeErr)

/-- Run a sequence of operations from a state, threading the state. -/
def runOps (s : GithubPRState) : List Op → GithubPRState
  | [] => s
  | op :: rest => runOps (step s op).1 rest

/-- Whether some MergePR call in the sequence, run from state s, returns
nil (i.e. succeeds). -/
def anyMergeSuccess (s : GithubPRState) : List Op → Bool
  | [] => false
  | op :: rest =>
    (op.isMergePR && (step s op).2.isNone) || anyMergeSuccess (step s op).1 rest

/-- Whether an operation's environment only hands out non-empty merge
SHAs; real GitHub merge SHAs are 40-character hashes, never empty. -/
def opSHAok : Op → Bool
  | .mergePR env =>
    match env.mergeRes with
    | .ok sha => if sha = "" then false else true
    | .error _ => true
  | _ => true

/-- strings.Split(s, "/") from the Go standard library, on the character
list of s: the maximal runs of non-slash characters between the slashes
(Split with a one-character separator).  Split of the empty string is the
one-element list holding the empty string. -/
def splitOnSlash : List Char → List (List Char)
  | [] => [[]]
  | c :: rest =>
    match splitOnSlash rest with
    | [] => [[]]
    | g :: gs => if c = '/' then [] :: g :: gs else (c :: g) :: gs

/-- The language of the sub-expression [^/]+ of the regular expression at
ghpr.go line 84: a non-empty run of non-slash characters. -/
def nonSlashSeg (cs : List Char) : Bool :=
  !cs.isEmpty && cs.all (fun c => decide (c ≠ '/'))

/-- The language of the anchored regular expression ^[^/]+/[^/]+$ matched
at ghpr.go line 84 (regexp.MatchString): the whole string decomposes at
some position i as a non-empty slash-free prefix, a slash, and a non-empty
slash-free suffix. -/
def regexMatch (cs : List Char) : Bool :=
  (List.range cs.length).any fun i =>
    decide (cs.get? i = some ('/' : Char)) && nonSlashSeg (cs.take i)
      && nonSlashSeg (cs.drop (i + 1))

/-- Error message built at ghpr.go line 89. -/
def invalidRepoMsg : String := "invalid repository name supplied"

/-- The results of the filesystem calls makeGithubPR (ghpr.go lines 80-119)
can make after validation: util.TempDir (returning the temporary directory
name) and the Chroot into it. -/
structure MakeEnv where
  tempDirRes : Except String (List Char)
  chrootRes : Except String Unit
deriving DecidableEq

/-- Observable outcome of one makeGithubPR call: whether util.TempDir (the
first filesystem side effect) was invoked, and either the error returned or
the (owner, repo) pair stored in the constructed instance. -/
structure MakeTrace where
  tempDirCalled : Bool
  result : Except String (List Char × List Char)
deriving DecidableEq

/-- makeGithubPR (ghpr.go lines 80-119) on the character list of repoName.
The constant pattern at line 84 always compiles, so the MatchString error
branch (lines 85-87) is dead and only the matched boolean is modelled.  On
a failed match the function returns the invalid-repository error before
any filesystem or network call; otherwise owner and repo are the elements
0 and 1 of strings.Split(repoName, "/"), the temporary directory is
created and chroot-ed into, and the instance is returned. -/
def makeGithubPR (repoName : List Char) (env : MakeEnv) : MakeTrace :=
  if regexMatch repoName then
    let owner := (splitOnSlash repoName).getD 0 []
    let repo := (splitOnSlash repoName).getD 1 []
    match env.tempDirRes with
    | .error e => ⟨true, .error e⟩
    | .ok _tempDir =>
      match env.chrootRes with
      | .error e => ⟨true, .error e⟩
      | .ok _ => ⟨true, .ok (owner, repo)⟩
  else ⟨false, .error invalidRepoMsg⟩

theorem splitOnSlash_no_slash (b : List Char) (hb : ∀ c ∈ b, c ≠ '/') :
    splitOnSlash b = [b] := by
  induction b with
  | nil => rfl
  | cons c rest ih =>
    have hc : c ≠ '/' := hb c (List.mem_cons_self c rest)
    have hrest : ∀ x ∈ rest, x ≠ '/' := fun x hx => hb x (List.mem_cons_of_mem c hx)
    simp [splitOnSlash, ih hrest, hc]

theorem splitOnSlash_append (a b : List Char) (ha : ∀ c ∈ a, c ≠ '/')
    (hb : ∀ c ∈ b, c ≠ '/') :
    splitOnSlash (a ++ '/' :: b) = [a, b] := by
  induction a with
  | nil => simp [splitOnSlash, splitOnSlash_no_slash b hb]
  | cons c rest ih =>
    have hc : c ≠ '/' := ha c (List.mem_cons_self c rest)
    have hrest : ∀ x ∈ rest, x ≠ '/' := fun x hx => ha x (List.mem_cons_of_mem c hx)
    simp [splitOnSlash, ih hrest, hc]

theorem nonSlashSeg_spec (cs : List Char) (h : nonSlashSeg cs = true) :
    cs ≠ [] ∧ ∀ c ∈ cs, c ≠ '/' := by
  simp only [nonSlashSeg, Bool.and_eq_true, Bool.not_eq_true', List.all_eq_true,
    decide_eq_true_eq] at h
  refine ⟨?_, h.2⟩
  cases cs with
  | nil => simp at h
  | cons c rest => simp

theorem regexMatch_decompose (cs : List Char) (h : regexMatch cs = true) :
    ∃ a b, cs = a ++ '/' :: b ∧ a ≠ [] ∧ b ≠ [] ∧
      (∀ c ∈ a, c ≠ '/') ∧ (∀ c ∈ b, c ≠ '/') := by
  simp only [regexMatch, List.any_eq_true, List.mem_range, Bool.and_eq_true,
    decide_eq_true_eq] at h
  obtain ⟨i, hi, ⟨hslash, hpre⟩, hsuf⟩ := h
  obtain ⟨hpre1, hpre2⟩ := nonSlashSeg_spec _ hpre
  obtain ⟨hsuf1, hsuf2⟩ := nonSlashSeg_spec _ hsuf
  refine ⟨cs.take i, cs.drop (i + 1), ?_, hpre1, hsuf1, hpre2, hsuf2⟩
  have hdrop : cs.drop i = cs.get ⟨i, hi⟩ :: cs.drop (i + 1) :=
    List.drop_eq_get_cons hi
  have hget : cs.get ⟨i, hi⟩ = '/' := by
    have hq := List.get?_eq_get hi
    rw [hq] at hslash
    exact Option.some.inj hslash
  calc cs = cs.take i ++ cs.drop i := (List.take_append_drop i cs).symm
    _ = cs.take i ++ '/' :: cs.drop (i + 1) := by rw [hdrop, hget]

/-- C1: waitForStatus classifies each poll result as the spec states: a
transport error from the status-list request is returned immediately (no
retry, whatever poll results would have followed); when the page holds
exactly one entry matching the requested check name, state "success"
resolves with no error, state "failure" or "error" resolves with the
descriptive failed-state error, and any other state continues polling; a
page with no matching entry continues polling; when the 60-minute deadline
elapses (the fuel or the poll results run out) the timeout error is
returned, and that error is distinct from the negative-check error. -/
theorem C1_waitForStatus_classification (statusContext e : String)
    (polls : List (Except String (List Status))) (statuses : List Status)
    (entry : Status) (n : Nat) :
    waitForStatus statusContext (Except.error e :: polls) (n + 1) = some e
  ∧ (statuses.filter (fun s => s.context = statusContext) = [entry] →
      waitForStatus statusContext (Except.ok statuses :: polls) (n + 1)
        = (if entry.state = "success" then none
           else if entry.state = "failure" ∨ entry.state = "error" then
             some statusFailedMsg
           else waitForStatus statusContext polls n))
  ∧ (statuses.filter (fun s => s.context = statusContext) = [] →
      waitForStatus statusContext (Except.ok statuses :: polls) (n + 1)
        = waitForStatus statusContext polls n)
  ∧ waitForStatus statusContext polls 0 = some timeoutMsg
  ∧ waitForStatus statusContext [] n = some timeoutMsg
  ∧ timeoutMsg ≠ statusFailedMsg := by
  refine ⟨rfl, ?_, ?_, ?_, ?_, by decide⟩
  · intro h
    rw [show waitForStatus statusContext (Except.ok statuses :: polls) (n + 1)
          = (match scanPage statuses statusContext with
             | .positive => none
             | .negative => some statusFailedMsg
             | .keepPolling => waitForStatus statusContext polls n) from rfl]
    rw [scanPage_eq_scanMatches, h]
    by_cases hs : entry.state = "success"
    · simp [scanMatches, hs]
    · by_cases hf : entry.state = "failure" ∨ entry.state = "error"
      · simp [scanMatches, hs, hf]
      · simp [scanMatches, hs, hf]
  · intro h
    rw [show waitForStatus statusContext (Except.ok statuses :: polls) (n + 1)
          = (match scanPage statuses statusContext with
             | .positive => none
             | .negative => some statusFailedMsg
             | .keepPolling => waitForStatus statusContext polls n) from rfl]
    rw [scanPage_eq_scanMatches, h]
    rfl
  · cases polls with
    | nil => rfl
    | cons p rest => rfl
  · cases n with
    | zero => rfl
    | succ m => rfl

/-- Witness for C1 at concrete inputs: a transport error is surfaced at
once; a page whose only matching entry is pending loops; a page with no
matching entry loops; an empty poll sequence times out. -/
theorem C1_waitForStatus_classification_witness :
    waitForStatus "ci" [Except.error "boom"] 1 = some "boom"
  ∧ waitForStatus "ci" [Except.ok [⟨"other", "success"⟩, ⟨"ci", "pending"⟩]] 1
      = (if ("pending" : String) = "success" then none
         else if ("pending" : String) = "failure" ∨ ("pending" : String) = "error" then
           some statusFailedMsg
         else waitForStatus "ci" [] 0)
  ∧ waitForStatus "ci" [Except.ok [⟨"other", "success"⟩]] 1 = waitForStatus "ci" [] 0
  ∧ waitForStatus "ci" [] 0 = some timeoutMsg
  ∧ timeoutMsg ≠ statusFailedMsg := by
  have h1 := C1_waitForStatus_classification "ci" "boom" []
    [⟨"other", "success"⟩, ⟨"ci", "pending"⟩] ⟨"ci", "pending"⟩ 0
  have h2 := C1_waitForStatus_classification "ci" "boom" []
    [⟨"other", "success"⟩] ⟨"ci", "pending"⟩ 0
  exact ⟨h1.1, h1.2.1 (by decide), h2.2.2.1 (by decide), h1.2.2.2.1, h1.2.2.2.2.2⟩

/-- C3 counterexample: in the page whose matching entries are, in page
order, one pending entry and then one successful entry, the first matching
entry is non-terminal, so the claim says the wait continues polling; the
code instead resolves positively (the scan of ghpr.go lines 229-243 merely
steps over a matching non-terminal entry), and continuing to poll would
have produced the timeout error here, not a positive resolution. -/
theorem C3_first_match_counterexample :
    (([⟨"ci", "pending"⟩, ⟨"ci", "success"⟩] : List Status).filter
        (fun s => s.context = "ci")).head? = some ⟨"ci", "pending"⟩
  ∧ waitForStatus "ci" [Except.ok [⟨"ci", "pending"⟩, ⟨"ci", "success"⟩]] 5 = none
  ∧ waitForStatus "ci" [] 4 = some timeoutMsg := by
  exact ⟨by decide, by decide, by decide⟩

/-- C3 (amended): the verdict of a page is determined by the first matching
entry in a terminal state (success, failure or error) in page order:
success resolves positively, failure or error resolves negatively;
matching entries in non-terminal states are stepped over, and if no
matching entry is terminal the wait keeps polling. -/
theorem C3_first_terminal_match_determines_verdict (statuses : List Status)
    (statusContext : String) (polls : List (Except String (List Status))) (n : Nat) :
    scanPage statuses statusContext
      = (match (statuses.filter (fun s => s.context = statusContext)).find? isTerminal with
         | none => ScanResult.keepPolling
         | some s => if s.state = "success" then ScanResult.positive
                     else ScanResult.negative)
  ∧ waitForStatus statusContext (Except.ok statuses :: polls) (n + 1)
      = (match (statuses.filter (fun s => s.context = statusContext)).find? isTerminal with
         | none => waitForStatus statusContext polls n
         | some s => if s.state = "success" then none else some statusFailedMsg) := by
  have h1 : scanPage statuses statusContext
      = (match (statuses.filter (fun s => s.context = statusContext)).find? isTerminal with
         | none => ScanResult.keepPolling
         | some s => if s.state = "success" then ScanResult.positive
                     else ScanResult.negative) := by
    rw [scanPage_eq_scanMatches, scanMatches_eq_find]
  refine ⟨h1, ?_⟩
  rw [show waitForStatus statusContext (Except.ok statuses :: polls) (n + 1)
        = (match scanPage statuses statusContext with
           | .positive => none
           | .negative => some statusFailedMsg
           | .keepPolling => waitForStatus statusContext polls n) from rfl]
  rw [h1]
  cases hf : (statuses.filter (fun s => s.context = statusContext)).find? isTerminal with
  | none => rfl
  | some s =>
    by_cases hs : s.state = "success"
    · simp [hs]
    · simp [hs]

/-- C2: a Create run short-circuits on the first failing step and tears the
workspace down on every exit path: the deferred Close runs whatever
happens; a Clone failure returns that error with no later step invoked;
and each later step's failure (push, create PR, wait for PR status, merge)
returns that step's error with every following step skipped, the full
observable trace being pinned in each case. -/
theorem C2_create_short_circuits_and_closes
    (branchName targetBranch prStatusContext masterStatusContext : String)
    (env : CreateEnv) :
    (Create branchName targetBranch prStatusContext masterStatusContext env).closeCalled
      = true
  ∧ (∀ e, cloneResult env.cloneEnv = some e →
      Create branchName targetBranch prStatusContext masterStatusContext env
        = ⟨false, none, false, false, false, true, some e⟩)
  ∧ (∀ e, cloneResult env.cloneEnv = none →
      (PushCommit env.pushEnv env.now).result = some e →
      Create branchName targetBranch prStatusContext masterStatusContext env
        = ⟨true, none, false, false, false, true, some e⟩)
  ∧ (∀ e, cloneResult env.cloneEnv = none →
      (PushCommit env.pushEnv env.now).result = none →
      env.raiseRes = Except.error e →
      Create branchName targetBranch prStatusContext masterStatusContext env
        = ⟨true, some (branchName, targetBranch, "test", ""), false, false, false, true,
            some e⟩)
  ∧ (∀ e number, cloneResult env.cloneEnv = none →
      (PushCommit env.pushEnv env.now).result = none →
      env.raiseRes = Except.ok number →
      waitForPRResult prStatusContext env.waitPREnv = some e →
      Create branchName targetBranch prStatusContext masterStatusContext env
        = ⟨true, some (branchName, targetBranch, "test", ""), true, false, false, true,
            some e⟩)
  ∧ (∀ e number, cloneResult env.cloneEnv = none →
      (PushCommit env.pushEnv env.now).result = none →
      env.raiseRes = Except.ok number →
      waitForPRResult prStatusContext env.waitPREnv = none →
      (MergePR "" env.mergeEnv).result = some e →
      Create branchName targetBranch prStatusContext masterStatusContext env
        = ⟨true, some (branchName, targetBranch, "test", ""), true, true, false, true,
            some e⟩) := by
  refine ⟨?_, ?_, ?_, ?_, ?_, ?_⟩
  · unfold Create
    repeat' split
    all_goals rfl
  · intro e h1
    simp [Create, h1]
  · intro e h1 h2
    simp [Create, h1, h2]
  · intro e h1 h2 h3
    simp [Create, h1, h2, h3]
  · intro e number h1 h2 h3 h4
    simp [Create, h1, h2, h3, h4]
  · intro e number h1 h2 h3 h4 h5
    simp [Create, h1, h2, h3, h4, h5]

/-- Witness for C2 at concrete environments: one run whose clone fails (its
trace shows no step after clone ran and Close ran), and one run whose push
fails after a successful clone. -/
theorem C2_create_short_circuits_and_closes_witness :
    Create "b" "t" "pc" "mc"
        ⟨⟨Except.ok (), Except.error "cloneboom"⟩,
         ⟨Except.ok "h", none, Except.ok (), none, Except.ok ("m", ⟨"n", "e", 1⟩),
          Except.ok "c", none, none⟩,
         7, Except.ok 1, ⟨Except.ok "h", [], 0⟩,
         ⟨Except.ok ⟨1, some true⟩, Except.ok "m"⟩, [], 0⟩
      = ⟨false, none, false, false, false, true, some "cloneboom"⟩
  ∧ Create "b" "t" "pc" "mc"
        ⟨⟨Except.ok (), Except.ok ()⟩,
         ⟨Except.error "pushboom", none, Except.ok (), none,
          Except.ok ("m", ⟨"n", "e", 1⟩), Except.ok "c", none, none⟩,
         7, Except.ok 1, ⟨Except.ok "h", [], 0⟩,
         ⟨Except.ok ⟨1, some true⟩, Except.ok "m"⟩, [], 0⟩
      = ⟨true, none, false, false, false, true, some "pushboom"⟩ := by
  constructor
  · exact (C2_create_short_circuits_and_closes "b" "t" "pc" "mc" _).2.1 "cloneboom" rfl
  · exact (C2_create_short_circuits_and_closes "b" "t" "pc" "mc" _).2.2.1 "pushboom" rfl rfl

/-- C10: whenever a Create run reaches PR creation, the pull request is
raised with the fixed title "test" and the empty body, and head and base
are the branch parameters; no parameter of Create influences the title or
the body (the run either never reaches RaisePR or calls it with exactly
these arguments, for every choice of parameters and environment). -/
theorem C10_pr_title_and_body_fixed
    (branchName targetBranch prStatusContext masterStatusContext : String)
    (env : CreateEnv) :
    (Create branchName targetBranch prStatusContext masterStatusContext env).raiseArgs
      = none
  ∨ (Create branchName targetBranch prStatusContext masterStatusContext env).raiseArgs
      = some (branchName, targetBranch, "test", "") := by
  unfold Create
  repeat' split
  all_goals simp

/-- C4 counterexample: a PushCommit run in which the checkout step fails
and every other step succeeds returns no error at all — the checkout error
is never returned to the caller, because ghpr.go line 166 discards the
return value of w.Checkout. -/
theorem C4_checkout_error_counterexample :
    (PushCommit
        ⟨Except.ok "h", none, Except.ok (), some "checkout failed",
         Except.ok ("m", ⟨"n", "e", 1⟩), Except.ok "c", none, none⟩ 7).result = none
  ∧ (⟨Except.ok "h", none, Except.ok (), some "checkout failed",
       Except.ok ("m", ⟨"n", "e", 1⟩), Except.ok "c", none, none⟩ : PushEnv).checkoutErr
      = some "checkout failed" := by
  exact ⟨rfl, rfl⟩

/-- C4 (amended): PushCommit returns every internal step's error to its
caller unchanged — HEAD resolution, branch-ref creation, worktree
retrieval, the mutation callback, commit, remote-ref recording, and push —
with the single exception of checkout: the result of w.Checkout is
discarded at ghpr.go line 166, so the outcome of PushCommit is entirely
independent of the checkout result. -/
theorem C4_push_error_propagation (env : PushEnv) (now : Nat) :
    (∀ e, env.headRes = Except.error e → (PushCommit env now).result = some e)
  ∧ (∀ h e, env.headRes = Except.ok h → env.setBranchRefErr = some e →
      (PushCommit env now).result = some e)
  ∧ (∀ h e, env.headRes = Except.ok h → env.setBranchRefErr = none →
      env.worktreeRes = Except.error e → (PushCommit env now).result = some e)
  ∧ (∀ h e, env.headRes = Except.ok h → env.setBranchRefErr = none →
      env.worktreeRes = Except.ok () → env.mutateRes = Except.error e →
      (PushCommit env now).result = some e)
  ∧ (∀ h m a e, env.headRes = Except.ok h → env.setBranchRefErr = none →
      env.worktreeRes = Except.ok () → env.mutateRes = Except.ok (m, a) →
      env.commitRes = Except.error e → (PushCommit env now).result = some e)
  ∧ (∀ h m a c e, env.headRes = Except.ok h → env.setBranchRefErr = none →
      env.worktreeRes = Except.ok () → env.mutateRes = Except.ok (m, a) →
      env.commitRes = Except.ok c → env.setRemoteRefErr = some e →
      (PushCommit env now).result = some e)
  ∧ (∀ h m a c, env.headRes = Except.ok h → env.setBranchRefErr = none →
      env.worktreeRes = Except.ok () → env.mutateRes = Except.ok (m, a) →
      env.commitRes = Except.ok c → env.setRemoteRefErr = none →
      (PushCommit env now).result = env.pushErr)
  ∧ (∀ c, PushCommit { env with checkoutErr := c } now = PushCommit env now) := by
  refine ⟨?_, ?_, ?_, ?_, ?_, ?_, ?_, ?_⟩
  · intro e h1
    simp [PushCommit, h1]
  · intro h e h1 h2
    simp [PushCommit, h1, h2]
  · intro h e h1 h2 h3
    simp [PushCommit, h1, h2, h3]
  · intro h e h1 h2 h3 h4
    simp [PushCommit, h1, h2, h3, h4]
  · intro h m a e h1 h2 h3 h4 h5
    simp [PushCommit, h1, h2, h3, h4, h5]
  · intro h m a c e h1 h2 h3 h4 h5 h6
    simp [PushCommit, h1, h2, h3, h4, h5, h6]
  · intro h m a c h1 h2 h3 h4 h5 h6
    simp [PushCommit, h1, h2, h3, h4, h5, h6]
  · intro c
    cases env
    rfl

/-- Witness for C4 (amended) at concrete environments: a failing HEAD
resolution is propagated, a failing push is propagated, and changing the
checkout result leaves the outcome untouched. -/
theorem C4_push_error_propagation_witness :
    (PushCommit
        ⟨Except.error "headboom", none, Except.ok (), none,
         Except.ok ("m", ⟨"n", "e", 1⟩), Except.ok "c", none, none⟩ 7).result
      = some "headboom"
  ∧ (PushCommit
        ⟨Except.ok "h", none, Except.ok (), none,
         Except.ok ("m", ⟨"n", "e", 1⟩), Except.ok "c", none, some "pushboom"⟩ 7).result
      = some "pushboom"
  ∧ PushCommit
        { (⟨Except.ok "h", none, Except.ok (), none,
            Except.ok ("m", ⟨"n", "e", 1⟩), Except.ok "c", none, none⟩ : PushEnv) with
          checkoutErr := some "checkout failed" } 7
      = PushCommit
          ⟨Except.ok "h", none, Except.ok (), none,
           Except.ok ("m", ⟨"n", "e", 1⟩), Except.ok "c", none, none⟩ 7 := by
  refine ⟨?_, ?_, ?_⟩
  · exact (C4_push_error_propagation _ 7).1 "headboom" rfl
  · exact (C4_push_error_propagation _ 7).2.2.2.2.2.2.1 "h" "m" ⟨"n", "e", 1⟩ "c"
      rfl rfl rfl rfl rfl rfl
  · exact (C4_push_error_propagation _ 7).2.2.2.2.2.2.2 (some "checkout failed")

/-- C6: when the mutation callback fails, PushCommit returns the callback's
error verbatim, w.Commit is never invoked, and gitRepo.Push is never
invoked, so the remote receives no branch. -/
theorem C6_mutation_failure_no_commit_no_push (env : PushEnv) (now : Nat)
    (h e : String) (hh : env.headRes = Except.ok h)
    (hs : env.setBranchRefErr = none) (hw : env.worktreeRes = Except.ok ())
    (hm : env.mutateRes = Except.error e) :
    (PushCommit env now).result = some e
  ∧ (PushCommit env now).commitCalled = false
  ∧ (PushCommit env now).pushCalled = false := by
  refine ⟨?_, ?_, ?_⟩ <;> simp [PushCommit, hh, hs, hw, hm]

/-- Witness for C6 at a concrete environment whose mutation callback fails
with the error "mutboom". -/
theorem C6_mutation_failure_no_commit_no_push_witness :
    (PushCommit
        ⟨Except.ok "h", none, Except.ok (), none, Except.error "mutboom",
         Except.ok "c", none, none⟩ 7).result = some "mutboom"
  ∧ (PushCommit
        ⟨Except.ok "h", none, Except.ok (), none, Except.error "mutboom",
         Except.ok "c", none, none⟩ 7).commitCalled = false
  ∧ (PushCommit
        ⟨Except.ok "h", none, Except.ok (), none, Except.error "mutboom",
         Except.ok "c", none, none⟩ 7).pushCalled = false := by
  exact C6_mutation_failure_no_commit_no_push _ 7 "h" "mutboom" rfl rfl rfl rfl

/-- C9: on a successful mutation callback, the committed author is the
returned Author with its timestamp replaced by the current wall-clock time
when and only when the returned timestamp is the zero time: a zero
timestamp is committed as the call time, and a non-zero timestamp is
committed unchanged. -/
theorem C9_zero_timestamp_replaced (env : PushEnv) (now : Nat) (h m : String)
    (author : Author) (hh : env.headRes = Except.ok h)
    (hs : env.setBranchRefErr = none) (hw : env.worktreeRes = Except.ok ())
    (hm : env.mutateRes = Except.ok (m, author)) :
    (author.when = 0 →
      (PushCommit env now).committedAuthor = some ⟨author.name, author.email, now⟩)
  ∧ (author.when ≠ 0 → (PushCommit env now).committedAuthor = some author) := by
  have key : (PushCommit env now).committedAuthor
      = some (if author.when = 0 then { author with when := now } else author) := by
    simp only [PushCommit, hh, hs, hw, hm]
    cases env.commitRes with
    | error e => rfl
    | ok c =>
      cases henv : env.setRemoteRefErr with
      | none => rfl
      | some e => rfl
  constructor
  · intro h0
    rw [key, if_pos h0]
  · intro h0
    rw [key, if_neg h0]

/-- Witness for C9 at concrete environments: a zero timestamp is replaced
by the call time 7, and the non-zero timestamp 3 is committed unchanged. -/
theorem C9_zero_timestamp_replaced_witness :
    (PushCommit
        ⟨Except.ok "h", none, Except.ok (), none, Except.ok ("m", ⟨"n", "e", 0⟩),
         Except.ok "c", none, none⟩ 7).committedAuthor = some ⟨"n", "e", 7⟩
  ∧ (PushCommit
        ⟨Except.ok "h", none, Except.ok (), none, Except.ok ("m", ⟨"n", "e", 3⟩),
         Except.ok "c", none, none⟩ 7).committedAuthor = some ⟨"n", "e", 3⟩ := by
  constructor
  · exact (C9_zero_timestamp_replaced _ 7 "h" "m" ⟨"n", "e", 0⟩ rfl rfl rfl rfl).1 rfl
  · exact (C9_zero_timestamp_replaced _ 7 "h" "m" ⟨"n", "e", 3⟩ rfl rfl rfl rfl).2
      (by decide)

/-- C5: MergePR invokes the merge API only when the fetched Mergeable flag
is present and true: with the flag false or absent it fails with the
not-mergeable error without invoking the merge API (and leaves mergeSHA
untouched); with the flag present and true the merge API is invoked; and
conversely, whenever the merge API was invoked the fetch succeeded with
the flag present and true. -/
theorem C5_merge_requires_mergeable_flag (mergeSHA0 : String) (env : MergeEnv)
    (pr : PRView) :
    (env.getRes = Except.ok pr → pr.mergeable ≠ some true →
      MergePR mergeSHA0 env = ⟨false, some notMergeableMsg, mergeSHA0⟩)
  ∧ (env.getRes = Except.ok pr → pr.mergeable = some true →
      (MergePR mergeSHA0 env).mergeAPICalled = true)
  ∧ ((MergePR mergeSHA0 env).mergeAPICalled = true →
      ∃ p, env.getRes = Except.ok p ∧ p.mergeable = some true) := by
  refine ⟨?_, ?_, ?_⟩
  · intro h1 h2
    rcases hm : pr.mergeable with _ | b
    · simp [MergePR, h1, hm]
    · cases b with
      | false => simp [MergePR, h1, hm]
      | true => exact absurd hm h2
  · intro h1 h2
    cases hr : env.mergeRes with
    | error e => simp [MergePR, h1, h2, hr]
    | ok sha => simp [MergePR, h1, h2, hr]
  · intro hcall
    cases hg : env.getRes with
    | error e => simp [MergePR, hg] at hcall
    | ok p =>
      refine ⟨p, rfl, ?_⟩
      rcases hm : p.mergeable with _ | b
      · simp [MergePR, hg, hm] at hcall
      · cases b with
        | false => simp [MergePR, hg, hm] at hcall
        | true => rfl

/-- Witness for C5 at concrete environments: a fetched PR whose flag is
false fails with the not-mergeable error and no merge API call; one whose
flag is absent does the same; one whose flag is true invokes the merge
API. -/
theorem C5_merge_requires_mergeable_flag_witness :
    MergePR "" ⟨Except.ok ⟨4, some false⟩, Except.ok "sha1"⟩
      = ⟨false, some notMergeableMsg, ""⟩
  ∧ MergePR "" ⟨Except.ok ⟨4, none⟩, Except.ok "sha1"⟩
      = ⟨false, some notMergeableMsg, ""⟩
  ∧ (MergePR "" ⟨Except.ok ⟨4, some true⟩, Except.ok "sha1"⟩).mergeAPICalled = true := by
  refine ⟨?_, ?_, ?_⟩
  · exact (C5_merge_requires_mergeable_flag "" _ ⟨4, some false⟩).1 rfl (by decide)
  · exact (C5_merge_requires_mergeable_flag "" _ ⟨4, none⟩).1 rfl (by decide)
  · exact (C5_merge_requires_mergeable_flag "" _ ⟨4, some true⟩).2.1 rfl rfl

theorem step_mergeSHA_iff (s : GithubPRState) (op : Op) (hok : opSHAok op = true) :
    ((step s op).1.mergeSHA ≠ "" ↔
      s.mergeSHA ≠ "" ∨ (op.isMergePR && (step s op).2.isNone) = true) := by
  cases op with
  | clone env =>
    cases h : cloneResult env with
    | some e => simp [step, h, Op.isMergePR]
    | none => simp [step, h, Op.isMergePR]
  | pushCommit env now => simp [step, Op.isMergePR]
  | raisePR res =>
    cases res with
    | error e => simp [step, Op.isMergePR]
    | ok n => simp [step, Op.isMergePR]
  | waitForPR statusContext env => simp [step, Op.isMergePR]
  | mergePR env =>
    cases hg : env.getRes with
    | error e => simp [step, MergePR, hg, Op.isMergePR]
    | ok pr =>
      rcases hm : pr.mergeable with _ | b
      · simp [step, MergePR, hg, hm, Op.isMergePR]
      · cases b with
        | false => simp [step, MergePR, hg, hm, Op.isMergePR]
        | true =>
          cases hr : env.mergeRes with
          | error e => simp [step, MergePR, hg, hm, hr, Op.isMergePR]
          | ok sha =>
            have hsha : sha ≠ "" := by
              simp only [opSHAok, hr] at hok
              intro hcontra
              rw [hcontra] at hok
              simp at hok
            simp [step, MergePR, hg, hm, hr, Op.isMergePR, hsha]
  | waitForMergeCommit statusContext polls fuel => simp [step, Op.isMergePR]
  | close removeErr => simp [step, Op.isMergePR]

theorem runOps_mergeSHA_iff (ops : List Op) : ∀ s : GithubPRState,
    ops.all opSHAok = true →
    ((runOps s ops).mergeSHA ≠ "" ↔
      (s.mergeSHA ≠ "" ∨ anyMergeSuccess s ops = true)) := by
  induction ops with
  | nil =>
    intro s _
    simp [runOps, anyMergeSuccess]
  | cons op rest ih =>
    intro s hall
    rw [List.all_cons, Bool.and_eq_true] at hall
    rw [show runOps s (op :: rest) = runOps (step s op).1 rest from rfl]
    rw [ih (step s op).1 hall.2]
    rw [step_mergeSHA_iff s op hall.1]
    rw [show anyMergeSuccess s (op :: rest)
          = ((op.isMergePR && (step s op).2.isNone)
              || anyMergeSuccess (step s op).1 rest) from rfl]
    rw [Bool.or_eq_true]
    tauto

/-- C7: the mergeSHA field of a GithubPR instance is set (non-zero) exactly
when some MergePR call in the instance's history has succeeded — provided
the merge API hands out real (non-empty) merge SHAs — and every operation
that returns an error, a MergePR that fails with the not-mergeable error
or a merge API error included, leaves mergeSHA unchanged. -/
theorem C7_mergeSHA_set_iff_merge_succeeded (s : GithubPRState) (op : Op)
    (e : String) (ops : List Op) :
    ((step s op).2 = some e → (step s op).1.mergeSHA = s.mergeSHA)
  ∧ (ops.all opSHAok = true →
      ((runOps initialState ops).mergeSHA ≠ ""
        ↔ anyMergeSuccess initialState ops = true)) := by
  constructor
  · intro hfail
    cases op with
    | clone env =>
      cases h : cloneResult env with
      | some e2 => simp [step, h]
      | none => simp [step, h]
    | pushCommit env now => simp [step]
    | raisePR res =>
      cases res with
      | error e2 => simp [step]
      | ok n => simp [step]
    | waitForPR statusContext env => simp [step]
    | mergePR env =>
      cases hg : env.getRes with
      | error e2 => simp [step, MergePR, hg]
      | ok pr =>
        rcases hm : pr.mergeable with _ | b
        · simp [step, MergePR, hg, hm]
        · cases b with
          | false => simp [step, MergePR, hg, hm]
          | true =>
            cases hr : env.mergeRes with
            | error e2 => simp [step, MergePR, hg, hm, hr]
            | ok sha =>
              rw [show (step s (Op.mergePR env)).2
                    = (MergePR s.mergeSHA env).result from rfl] at hfail
              simp [MergePR, hg, hm, hr] at hfail
    | waitForMergeCommit statusContext polls fuel => simp [step]
    | close removeErr => simp [step]
  · intro hall
    have h := runOps_mergeSHA_iff ops initialState hall
    simpa [initialState] using h

/-- Witness for C7 at concrete inputs: a history of one successful MergePR
leaves mergeSHA set, matching anyMergeSuccess; and a concrete failing
operation (a Close returning an error) leaves mergeSHA unchanged. -/
theorem C7_mergeSHA_set_iff_merge_succeeded_witness :
    ((runOps initialState [Op.mergePR ⟨Except.ok ⟨4, some true⟩, Except.ok "abc"⟩]).mergeSHA
        ≠ ""
      ↔ anyMergeSuccess initialState
          [Op.mergePR ⟨Except.ok ⟨4, some true⟩, Except.ok "abc"⟩] = true)
  ∧ (step initialState (Op.close (some "rmboom"))).1.mergeSHA
      = initialState.mergeSHA := by
  constructor
  · exact (C7_mergeSHA_set_iff_merge_succeeded initialState
      (Op.close (some "rmboom")) "rmboom"
      [Op.mergePR ⟨Except.ok ⟨4, some true⟩, Except.ok "abc"⟩]).2 (by decide)
  · exact (C7_mergeSHA_set_iff_merge_succeeded initialState
      (Op.close (some "rmboom")) "rmboom"
      [Op.mergePR ⟨Except.ok ⟨4, some true⟩, Except.ok "abc"⟩]).1 rfl

/-- C8: for every repository name matched by the anchored regular
expression of ghpr.go line 84, makeGithubPR (given working filesystem
calls) succeeds and stores exactly the two non-empty slash-free components
as owner and repo, the input being owner ++ "/" ++ repo; for every
non-matching name it fails with the input-validation error and the trace
shows no filesystem call (util.TempDir was never invoked), hence no
filesystem or network side effect. -/
theorem C8_repo_name_validation (cs : List Char) (env : MakeEnv) (d : List Char) :
    (regexMatch cs = true → env.tempDirRes = Except.ok d →
      env.chrootRes = Except.ok () →
      ∃ a b, makeGithubPR cs env = ⟨true, Except.ok (a, b)⟩
        ∧ cs = a ++ '/' :: b ∧ a ≠ [] ∧ b ≠ []
        ∧ (∀ c ∈ a, c ≠ '/') ∧ (∀ c ∈ b, c ≠ '/'))
  ∧ (regexMatch cs = false →
      makeGithubPR cs env = ⟨false, Except.error invalidRepoMsg⟩) := by
  constructor
  · intro hm ht hc
    obtain ⟨a, b, hdec, ha, hb, hna, hnb⟩ := regexMatch_decompose cs hm
    have hsplit : splitOnSlash cs = [a, b] := by
      rw [hdec]
      exact splitOnSlash_append a b hna hnb
    refine ⟨a, b, ?_, hdec, ha, hb, hna, hnb⟩
    simp [makeGithubPR, hm, ht, hc, hsplit]
  · intro hm
    simp [makeGithubPR, hm]

/-- Witness for C8 at concrete inputs: the two-character components of
"a/b" are parsed into owner and repo, and the slash-free string "ab"
is rejected with the validation error before any filesystem call. -/
theorem C8_repo_name_validation_witness :
    (∃ a b, makeGithubPR ['a', '/', 'b'] ⟨Except.ok ['t'], Except.ok ()⟩
        = ⟨true, Except.ok (a, b)⟩
      ∧ ['a', '/', 'b'] = a ++ '/' :: b ∧ a ≠ [] ∧ b ≠ []
      ∧ (∀ c ∈ a, c ≠ '/') ∧ (∀ c ∈ b, c ≠ '/'))
  ∧ makeGithubPR ['a', 'b'] ⟨Except.ok ['t'], Except.ok ()⟩
      = ⟨false, Except.error invalidRepoMsg⟩ := by
  constructor
  · exact (C8_repo_name_validation ['a', '/', 'b'] ⟨Except.ok ['t'], Except.ok ()⟩
      ['t']).1 (by decide) rfl rfl
  · exact (C8_repo_name_validation ['a', 'b'] ⟨Except.ok ['t'], Except.ok ()⟩
      ['t']).2 (by decide)

end Ghpr
